import Mathlib

/-
Verification development for a heap allocator (src/osmem.c).

The allocator keeps an address-ordered doubly-linked list of heap block
headers (the Block Directory) plus independently mmapped large blocks that
never join the directory.  We embed the directory as a `List Block` in
linked-list order: the `next` of an entry is the following list element and
`prev` the preceding one, exactly the relation the C code maintains.  Every
block carries its header base address, so the address arithmetic performed
by `try_split`, `split_realloc` and `coalesce` is modelled literally.
Machine `size_t` arithmetic is modelled on `Nat` with explicit wraparound
(`sub64`, reductions mod 2^64) and the `(int)` cast in `split_realloc` with
`toInt32`.  OS primitives (`sbrk`, `mmap`, `munmap`) are modelled by their
effect on an explicit state: `brk` is the heap growth cursor and fresh
mappings are placed at a mapping cursor.  `DIE` on a failed primitive
terminates the process; the main definitions model the successful runs, and
a separate failure-aware layer records what each call site does when the
primitive fails (for the error-handling claims).
-/

set_option autoImplicit false

namespace OsMem

/-- Modelled from the spec: `sizeof(struct block_meta)`.  The header record
(block_meta.h is not part of src/) holds `size_t size`, `int status` and two
pointers; on the LP64 target this is 8 + 8 (int plus padding) + 8 + 8 = 32
bytes, a multiple of the 8-byte alignment as the code assumes. -/
def META_SIZE : Nat := 32

/-- Large-object threshold, `MMAP_THRESHOLD` in osmem.c line 11. -/
def MMAP_THRESHOLD : Nat := 128 * 1024

/-- Alignment rounding `(size + (ALIGNMENT - 1)) & ~(ALIGNMENT - 1)` with
`ALIGNMENT = 8`, computed in `size_t` (lines 112, 151, 234, 280, 341).
Clearing the low three bits of `x` is `x / 8 * 8`. -/
def align8 (n : Nat) : Nat := ((n + 7) % 2 ^ 64) / 8 * 8

/-- Wrapping 64-bit subtraction `a - b` on `size_t` values below `2^64`. -/
def sub64 (a b : Nat) : Nat := (2 ^ 64 + a - b) % 2 ^ 64

/-- Conversion of a `size_t` value to `int` (the cast at line 283),
two's-complement truncation to 32 bits. -/
def toInt32 (n : Nat) : Int :=
  if n % 2 ^ 32 < 2 ^ 31 then (n % 2 ^ 32 : Int) else (n % 2 ^ 32 : Int) - 2 ^ 32

/-- One `struct block_meta` header: base address of the header, usable
payload size, and status (0 = free, 1 = heap allocated, 2 = mmapped).
The payload starts at `addr + META_SIZE`. -/
structure Block where
  addr : Nat
  size : Nat
  status : Nat
deriving DecidableEq, Repr

/-- Global allocator state: the Block Directory (`global_base` list, in
linked-list order), the set of live independent mappings, the heap growth
cursor (`sbrk(0)`), and a cursor at which the model places fresh anonymous
mappings. -/
structure AllocState where
  dir : List Block
  mapped : List Block
  brk : Nat
  nextMmapAddr : Nat
deriving DecidableEq, Repr

/-- Loop of `find_best_block` (lines 54-71): scan the whole directory,
remembering the smallest free block of size at least `size` seen so far;
`best_fit_size` starts at `MMAP_THRESHOLD` (line 56) and only a strictly
smaller free block replaces the current best (line 62). -/
def find_best_aux (size : Nat) : List Block → Option Block → Nat → Option Block
  | [], best, _ => best
  | b :: rest, best, bestSize =>
    if b.status = 0 ∧ size ≤ b.size ∧ b.size < bestSize then
      find_best_aux size rest (some b) b.size
    else
      find_best_aux size rest best bestSize

/-- `find_best_block` (lines 54-71). -/
def find_best_block (dir : List Block) (size : Nat) : Option Block :=
  find_best_aux size dir none MMAP_THRESHOLD

/-- `try_split` (lines 74-104) as a directory transformation: the block at
address `a` (the best-fit block, whose size is at least `size` at the only
call site) is either split into an allocated prefix of exactly `size` bytes
plus a free remainder block placed at `a + size + META_SIZE` (when the
remainder can host a header plus one byte, line 80), or marked allocated
whole.  The returned payload pointer is `a + META_SIZE` at the call site. -/
def try_split (a size : Nat) : List Block → List Block
  | [] => []
  | b :: rest =>
    if b.addr = a then
      if b.size - size ≥ META_SIZE + 1 then
        ⟨a, size, 1⟩ :: ⟨a + size + META_SIZE, b.size - size - META_SIZE, 0⟩ :: rest
      else
        ⟨b.addr, b.size, 1⟩ :: rest
    else
      b :: try_split a size rest

/-- `preallocate` (lines 18-35): first sub-threshold request reserves a
`MMAP_THRESHOLD` slab with `sbrk`, carves one allocated block of the
requested size at its start and makes it the whole directory. -/
def preallocate (s : AllocState) (size : Nat) : AllocState × Option Nat :=
  (⟨[⟨s.brk, size, 1⟩], s.mapped, (s.brk + MMAP_THRESHOLD) % 2 ^ 64, s.nextMmapAddr⟩,
   some (s.brk + META_SIZE))

/-- `request_mmap` (lines 38-51): anonymous mapping of `size + META_SIZE`
bytes, header marked status 2, never linked into the directory (`next` and
`prev` are never written and the fresh mapping is zero-filled, so they read
as NULL). -/
def request_mmap (s : AllocState) (size : Nat) : AllocState × Option Nat :=
  (⟨s.dir, ⟨s.nextMmapAddr, size, 2⟩ :: s.mapped, s.brk,
    (s.nextMmapAddr + size + META_SIZE) % 2 ^ 64⟩,
   some (s.nextMmapAddr + META_SIZE))

/-- `expand_last` (lines 107-122): extend the heap so that the tail block's
payload reaches `size` bytes.  `real_size = sbrk(0) - last` and
`new_size = size - real_size + META_SIZE` are `size_t` computations that may
wrap; the tail block's size becomes exactly `size`, its status allocated,
and the returned pointer is the tail block's payload `last + 1`. -/
def expand_last (s : AllocState) (lastAddr size : Nat) : AllocState × Option Nat :=
  let real_size := sub64 s.brk lastAddr
  let new_size := align8 (sub64 size real_size + META_SIZE)
  (⟨s.dir.dropLast ++ [⟨lastAddr, size, 1⟩], s.mapped, (s.brk + new_size) % 2 ^ 64,
    s.nextMmapAddr⟩,
   some (lastAddr + META_SIZE))

/-- `create_new_block` (lines 125-143): append a brand-new allocated block
at the current heap top and link it as the new tail. -/
def create_new_block (s : AllocState) (size : Nat) : AllocState × Option Nat :=
  (⟨s.dir ++ [⟨s.brk, size, 1⟩], s.mapped, (s.brk + size + META_SIZE) % 2 ^ 64,
    s.nextMmapAddr⟩,
   some (s.brk + META_SIZE))

/-- `os_malloc` (lines 145-172): zero request returns NULL; the request is
aligned; sub-threshold requests use the heap path (preallocate on the first
touch, otherwise best-fit with split, else expand a free tail, else append),
and requests of at least `MMAP_THRESHOLD` go to `request_mmap`. -/
def os_malloc (s : AllocState) (size0 : Nat) : AllocState × Option Nat :=
  if size0 = 0 then (s, none)
  else
    let size := align8 size0
    if size < MMAP_THRESHOLD then
      match s.dir with
      | [] => preallocate s size
      | d :: ds =>
        match find_best_block (d :: ds) size with
        | some best =>
          (⟨try_split best.addr size (d :: ds), s.mapped, s.brk, s.nextMmapAddr⟩,
           some (best.addr + META_SIZE))
        | none =>
          let lastB := (d :: ds).getLast (List.cons_ne_nil d ds)
          if lastB.status = 0 ∧ lastB.size < size then
            expand_last s lastB.addr size
          else
            create_new_block s size
    else
      request_mmap s size

/-- Header lookup for a payload pointer: the C code reads the header at
`ptr - META_SIZE`; in the model that address denotes a live header exactly
when some directory entry or live mapping starts there.  `none` means the
read touches memory that is not a live block header (already unmapped, or
absorbed into a neighbour), whose contents the allocator does not control. -/
def findBlock (dir mapped : List Block) (a : Nat) : Option Block :=
  match dir.find? (fun x => x.addr == a) with
  | some b => some b
  | none => mapped.find? (fun x => x.addr == a)

/-- Forward-merge step of `os_free` (lines 203-212): if the original
successor exists and is free, absorb its payload and header into `b` and
unlink it. -/
def absorbNext (b : Block) (rest : List Block) : Block × List Block :=
  match rest with
  | [] => (b, [])
  | n :: rest2 =>
    if n.status = 0 then (⟨b.addr, b.size + n.size + META_SIZE, b.status⟩, rest2)
    else (b, rest)

/-- Heap branch of `os_free` (lines 185-214) on the directory: locate the
block whose header is at `a`; if its predecessor is free, merge into the
predecessor (absorbing size plus header, lines 190-201); then, if the
original successor is free, absorb it (lines 203-212); finally mark the
resulting block free (line 214).  The walk carries one block of lookahead so
a match in second position knows its predecessor. -/
def osFreeHeap (a : Nat) : List Block → List Block
  | [] => []
  | [b] =>
    if b.addr = a ∧ b.status = 1 then [⟨b.addr, b.size, 0⟩] else [b]
  | b :: c :: rest =>
    if b.addr = a then
      if b.status = 1 then
        let m := absorbNext b (c :: rest)
        ⟨m.1.addr, m.1.size, 0⟩ :: m.2
      else b :: c :: rest
    else if c.addr = a then
      if c.status = 1 then
        if b.status = 0 then
          let m := absorbNext ⟨b.addr, b.size + c.size + META_SIZE, b.status⟩ rest
          ⟨m.1.addr, m.1.size, 0⟩ :: m.2
        else
          let m := absorbNext c rest
          b :: ⟨m.1.addr, m.1.size, 0⟩ :: m.2
      else b :: c :: rest
    else
      b :: osFreeHeap a (c :: rest)

/-- Result of `os_free`: either the updated directory and mapping set, or an
access to a header address that is not live (`ubHeader`) — for a mapped
block released twice this is a read of unmapped memory. -/
inductive FreeResult where
  | ok (dir mapped : List Block)
  | ubHeader
deriving DecidableEq, Repr

/-- `os_free` (lines 174-219): NULL is a no-op; an already-free block is a
no-op (line 182); a heap block is coalesced and marked free; a mapped block
is unmapped immediately (munmap success modelled; its failure is DIE). -/
def os_free (dir mapped : List Block) (ptr : Nat) : FreeResult :=
  if ptr = 0 then .ok dir mapped
  else
    match findBlock dir mapped (ptr - META_SIZE) with
    | none => .ubHeader
    | some b =>
      if b.status = 0 then .ok dir mapped
      else if b.status = 1 then .ok (osFreeHeap (ptr - META_SIZE) dir) mapped
      else .ok dir (mapped.filter (fun m => !(m.addr == b.addr)))

/-- Predecessor of the directory entry whose header address is `a` (the
`prev` field the C code would read there); `none` for the head block. -/
def prevOf (a : Nat) : List Block → Option Block
  | b :: c :: rest => if c.addr = a then some b else prevOf a (c :: rest)
  | _ => none

/-- Successor of the directory entry whose header address is `a` (the
`next` field the C code would read there); `none` for the tail block. -/
def dirNext (a : Nat) : List Block → Option Block
  | b :: c :: rest => if b.addr = a then some c else dirNext a (c :: rest)
  | _ => none

/-- `coalesce` (lines 259-274).  The condition at line 261 reads
`block->next->status` before comparing `block->next` against NULL, so a call
with a NULL successor dereferences NULL: that is the `none` result.  With a
free successor the block absorbs either the successor's payload plus header
(when the successor is the tail) or the raw address distance to the block
after it (line 268). -/
def coalesce (b : Block) (next? nextnext? : Option Block) : Option Block :=
  match next? with
  | none => none
  | some n =>
    if n.status = 0 then
      match nextnext? with
      | none => some ⟨b.addr, b.size + n.size + META_SIZE, b.status⟩
      | some nn => some ⟨b.addr, b.size + sub64 nn.addr n.addr, b.status⟩
    else some b

/-- Directory effect of `coalesce` at header address `a`: the free successor
is unlinked and its size absorbed per the rule of lines 265-268. -/
def coalesce_dir (a : Nat) : List Block → List Block
  | b :: c :: rest =>
    if b.addr = a then
      if c.status = 0 then
        (match rest with
         | [] => (⟨b.addr, b.size + c.size + META_SIZE, b.status⟩ : Block)
         | nn :: _ => ⟨b.addr, b.size + sub64 nn.addr c.addr, b.status⟩) :: rest
      else b :: c :: rest
    else b :: coalesce_dir a (c :: rest)
  | l => l

/-- Write the `size` field of the header at address `a` (the in-place branch
of `split_realloc`, line 284). -/
def setSizeAt (a sz : Nat) (l : List Block) : List Block :=
  l.map (fun b => if b.addr = a then ⟨b.addr, sz, b.status⟩ else b)

/-- Splitting step of `split_realloc` (lines 296-310): the block at `a`
keeps `sz` payload bytes and a new free block of `rem` bytes is linked right
after it at `a + sz + META_SIZE`. -/
def split_insert (a sz rem : Nat) : List Block → List Block
  | [] => []
  | b :: rest =>
    if b.addr = a then
      ⟨a, sz, 1⟩ :: ⟨a + sz + META_SIZE, rem, 0⟩ :: rest
    else
      b :: split_insert a sz rem rest

/-- Outcome of `os_realloc` and `split_realloc`.  Constructors record which
source path produced the result: `same`, `inPlace`, `heapSplit`, `growSame`
and `expandLast` all return the original payload pointer; `relocateCopy`
stands for the relocation sequence `os_malloc` / `memcpy` of `copySize`
bytes / `os_free`; `callMalloc` and `freed` are the NULL-pointer and
zero-size delegations; `ubNullNext` is the NULL dereference inside
`coalesce`; `ubHeader` is a header read at a non-live address. -/
inductive RResult where
  | callMalloc (size : Nat)
  | freed
  | ubHeader
  | retNull
  | same (ret : Nat)
  | inPlace (dir mapped : List Block) (ret : Nat)
  | relocateCopy (allocSize copySize : Nat)
  | heapSplit (dir : List Block) (ret : Nat)
  | splitNull
  | expandLast (ret size : Nat)
  | growSame (dir : List Block) (ret : Nat)
  | ubNullNext
deriving DecidableEq, Repr

/-- `split_realloc` (lines 277-313): align the requested size; compute
`remaining = block->size - size - META_SIZE` in `size_t` and test it
through an `(int)` cast (line 283).  Non-positive remainder: shrink the size
field in place and return the same pointer.  Otherwise a mapped block
relocates (`os_malloc(size)`, `memcpy` of `size` bytes, `os_free`, lines
288-294) and a heap block is split in place (lines 295-310); any other
status yields NULL. -/
def split_realloc (dir mapped : List Block) (b : Block) (size0 : Nat) : RResult :=
  let size := align8 size0
  let remaining := sub64 (sub64 b.size size) META_SIZE
  if toInt32 remaining ≤ 0 then
    .inPlace (setSizeAt b.addr size dir) (setSizeAt b.addr size mapped) (b.addr + META_SIZE)
  else if b.status = 2 then
    .relocateCopy size size
  else if b.status = 1 then
    .heapSplit (split_insert b.addr size remaining dir) (b.addr + META_SIZE)
  else
    .splitNull

/-- `os_realloc` (lines 315-368).  NULL pointer delegates to `os_malloc`;
size zero delegates to `os_free`; a free block returns NULL; equal unaligned
size returns the pointer; a smaller size goes to `split_realloc`.  For a
larger size the code aligns and tests `block->next == NULL` (line 344): a
heap block's `next` is its directory successor, and a mapped block's header
is outside the directory with `next`/`prev` never written — the zero-filled
mapping makes `next` read as NULL — so both tail heap blocks and mapped
blocks take the `expand_last` path.  With a successor the code computes
`real_size` from raw addresses (line 349), calls `coalesce`, and then either
returns the pointer, re-splits, or relocates copying `block->size` bytes. -/
def os_realloc (dir mapped : List Block) (ptr : Nat) (size0 : Nat) : RResult :=
  if ptr = 0 then .callMalloc size0
  else if size0 = 0 then .freed
  else
    let a := ptr - META_SIZE
    match findBlock dir mapped a with
    | none => .ubHeader
    | some b =>
      if b.status = 0 then .retNull
      else if size0 = b.size then .same ptr
      else if size0 < b.size then split_realloc dir mapped b size0
      else
        let sz := align8 size0
        let next? := if b.status = 2 then none else dirNext a dir
        match next? with
        | none => .expandLast ptr sz
        | some n =>
          let realSize := sub64 (sub64 n.addr a) META_SIZE
          match coalesce b (some n) (dirNext n.addr dir) with
          | none => .ubNullNext
          | some b2 =>
            let dir2 := coalesce_dir a dir
            if b2.size = sz then .growSame dir2 ptr
            else if realSize ≥ sz then split_realloc dir2 mapped b2 sz
            else if b2.size > sz then split_realloc dir2 mapped b2 sz
            else .relocateCopy sz b2.size

/-- Payload pointer returned by an `os_realloc` outcome, when the outcome
returns one directly. -/
def retPtr : RResult → Option Nat
  | .same r => some r
  | .inPlace _ _ r => some r
  | .heapSplit _ r => some r
  | .growSame _ r => some r
  | .expandLast r _ => some r
  | _ => none

/-- Result of `os_calloc`: the new state, the returned pointer, and whether
the returned payload was zero-filled by a `memset` before returning. -/
structure CallocOut where
  state : AllocState
  ret : Option Nat
  zeroFilled : Bool
deriving DecidableEq, Repr

/-- `os_calloc` (lines 221-256): zero count or element size returns NULL;
`total = nmemb * size` is computed in `size_t` and aligned; if
`total + META_SIZE` exceeds the OS page size the request is served by an
independent anonymous mapping marked status 2 and zero-filled directly
(lines 237-247, never touching the directory), otherwise it delegates to
`os_malloc(total)` and zero-fills a non-NULL result (lines 250-253). -/
def os_calloc (s : AllocState) (pageSize nmemb esz : Nat) : CallocOut :=
  if esz = 0 ∨ nmemb = 0 then ⟨s, none, false⟩
  else
    let total := align8 (nmemb * esz % 2 ^ 64)
    if total + META_SIZE > pageSize then
      ⟨⟨s.dir, ⟨s.nextMmapAddr, total, 2⟩ :: s.mapped, s.brk,
        (s.nextMmapAddr + total + META_SIZE) % 2 ^ 64⟩,
       some (s.nextMmapAddr + META_SIZE), true⟩
    else
      let r := os_malloc s total
      ⟨r.1, r.2, r.2.isSome⟩

/-- What a call site does when its OS primitive fails: `fatalDiag` is the
`DIE` macro (report a diagnostic and terminate), `ubContinue` means the
failed result is used with no check at all. -/
inductive PrimOutcome where
  | fatalDiag
  | ubContinue
deriving DecidableEq, Repr

/-- Failure behaviour of the `sbrk` in `preallocate`: `DIE` at line 23. -/
def preallocate_onFailure : PrimOutcome := .fatalDiag

/-- Failure behaviour of the `mmap` in `request_mmap`: `DIE` at line 44. -/
def request_mmap_onFailure : PrimOutcome := .fatalDiag

/-- Failure behaviour of the `sbrk` in `expand_last`: `DIE` at line 116. -/
def expand_last_onFailure : PrimOutcome := .fatalDiag

/-- Failure behaviour of the `sbrk` in `create_new_block`: `DIE` at
line 129. -/
def create_new_block_onFailure : PrimOutcome := .fatalDiag

/-- Failure behaviour of the `munmap` in `os_free`: `DIE` at line 217. -/
def os_free_munmap_onFailure : PrimOutcome := .fatalDiag

/-- Failure behaviour of the `mmap` in `os_calloc` (line 238): the result is
stored into and `memset` without any check — lines 240-245 run on
`MAP_FAILED` — so a failure is not reported and not fatal-by-design. -/
def os_calloc_mmap_onFailure : PrimOutcome := .ubContinue

/-- Failure-aware run of `os_calloc`: `ubStoreToMapFailed` is the write of
the header fields through `MAP_FAILED` at lines 240-245 when the `mmap` of
line 238 fails; `fatalStop` would be a `DIE` diagnostic (which this path
does not have). -/
inductive CallocFA where
  | okOut (o : CallocOut)
  | ubStoreToMapFailed
  | fatalStop
deriving DecidableEq, Repr

/-- `os_calloc` with an explicit failure flag for the `mmap` of line 238;
all other branches are as in `os_calloc`. -/
def os_calloc_fa (mmapFails : Bool) (s : AllocState) (pageSize nmemb esz : Nat) : CallocFA :=
  if esz = 0 ∨ nmemb = 0 then .okOut ⟨s, none, false⟩
  else
    let total := align8 (nmemb * esz % 2 ^ 64)
    if total + META_SIZE > pageSize then
      if mmapFails then .ubStoreToMapFailed
      else .okOut (os_calloc s pageSize nmemb esz)
    else .okOut (os_calloc s pageSize nmemb esz)

/-- Whether two physically adjacent directory entries are both free —
Directory invariant 2 forbids this. -/
def hasAdjacentFree : List Block → Bool
  | b :: c :: rest => (b.status == 0 && c.status == 0) || hasAdjacentFree (c :: rest)
  | _ => false

/-- Thread a successful `os_free` back into an allocator state, for running
concrete traces (`brk` and the mapping cursor are unchanged by `os_free`;
the `ubHeader` case leaves the state unchanged and does not occur in the
traces below). -/
def c2free (s : AllocState) (p : Nat) : AllocState :=
  match os_free s.dir s.mapped p with
  | .ok d m => ⟨d, m, s.brk, s.nextMmapAddr⟩
  | .ubHeader => s

/-- Trace for the best-fit claim: initial empty state, heap at `2^20`. -/
def c2sA : AllocState := ⟨[], [], 2 ^ 20, 2 ^ 40⟩

/-- After `a = os_malloc 65528` (first touch: preallocation). -/
def c2sB : AllocState := (os_malloc c2sA 65528).1

/-- After `b = os_malloc 65528` (appended at the heap top). -/
def c2sC : AllocState := (os_malloc c2sB 65528).1

/-- After `c = os_malloc 65528` (appended at the heap top). -/
def c2sD : AllocState := (os_malloc c2sC 65528).1

/-- After a small guard allocation keeping the tail non-free. -/
def c2sE : AllocState := (os_malloc c2sD 8).1

/-- After `os_free a`. -/
def c2sF : AllocState := c2free c2sE (2 ^ 20 + META_SIZE)

/-- After `os_free b`: merges into the free predecessor. -/
def c2sG : AllocState := c2free c2sF 1179680

/-- After `os_free c`: merges again, one free block of 196648 bytes. -/
def c2sH : AllocState := c2free c2sG 1245240

end OsMem

namespace OsMem

/-- Alignment rounding does not decrease the request when the addition
`size + 7` does not wrap around `size_t`. -/
theorem align8_ge (n : Nat) (h : n + 7 < 2 ^ 64) : n ≤ align8 n := by
  unfold align8
  rw [Nat.mod_eq_of_lt h]
  have hd := Nat.div_add_mod (n + 7) 8
  have hm : (n + 7) % 8 < 8 := Nat.mod_lt _ (by norm_num)
  omega

/-- Wrapping subtraction of a value from itself is zero. -/
theorem sub64_self (x : Nat) : sub64 x x = 0 := by
  unfold sub64
  rw [Nat.add_sub_cancel]
  exact Nat.mod_self _

/-- A block found by header lookup sits at the looked-up address. -/
theorem findBlock_addr (dir mapped : List Block) (a : Nat) (b : Block)
    (h : findBlock dir mapped a = some b) : b.addr = a := by
  unfold findBlock at h
  cases hd : dir.find? (fun x => x.addr == a) with
  | some c =>
    rw [hd] at h
    obtain rfl : c = b := by injection h
    have := List.find?_some hd
    simpa using this
  | none =>
    rw [hd] at h
    have := List.find?_some h
    simpa using this

/-- A hit in the directory is a hit of the full header lookup. -/
theorem findBlock_of_dir (dir mapped : List Block) (a : Nat) (b : Block)
    (h : dir.find? (fun x => x.addr == a) = some b) :
    findBlock dir mapped a = some b := by
  unfold findBlock
  rw [h]

/-- Invariant of the `find_best_block` scan: a `some` result is either the
incoming accumulator (and nothing in the remaining list beats the
accumulated size) or the first block in the remaining list that attains the
minimum among free fitting blocks below the running bound. -/
theorem find_best_aux_sound (size : Nat) :
    ∀ (rest : List Block) (best : Option Block) (bestSize : Nat) (b : Block),
      find_best_aux size rest best bestSize = some b →
      (best = some b ∧ ∀ c ∈ rest, c.status = 0 → size ≤ c.size → bestSize ≤ c.size) ∨
      (∃ pre post, rest = pre ++ b :: post ∧ b.status = 0 ∧ size ≤ b.size ∧ b.size < bestSize ∧
        (∀ c ∈ pre, c.status = 0 → size ≤ c.size → b.size < c.size ∨ bestSize ≤ c.size) ∧
        (∀ c ∈ post, c.status = 0 → size ≤ c.size → b.size ≤ c.size)) := by
  intro rest
  induction rest with
  | nil =>
    intro best bestSize b h
    left
    refine ⟨by simpa [find_best_aux] using h, by simp⟩
  | cons hd tl ih =>
    intro best bestSize b h
    simp only [find_best_aux] at h
    by_cases hc : hd.status = 0 ∧ size ≤ hd.size ∧ hd.size < bestSize
    · rw [if_pos hc] at h
      rcases ih (some hd) hd.size b h with ⟨hcb, hall⟩ | ⟨pre, post, heq, hb0, hbs, hlt, hpre, hpost⟩
      · obtain rfl : hd = b := by injection hcb
        right
        exact ⟨[], tl, by simp, hc.1, hc.2.1, hc.2.2, by simp,
          fun x hx h1 h2 => hall x hx h1 h2⟩
      · right
        refine ⟨hd :: pre, post, by simp [heq], hb0, hbs, lt_trans hlt hc.2.2, ?_, hpost⟩
        intro x hx h1 h2
        rcases List.mem_cons.mp hx with rfl | hx2
        · exact Or.inl hlt
        · rcases hpre x hx2 h1 h2 with h3 | h3
          · exact Or.inl h3
          · exact Or.inl (lt_of_lt_of_le hlt h3)
    · rw [if_neg hc] at h
      rcases ih best bestSize b h with ⟨hcb, hall⟩ | ⟨pre, post, heq, hb0, hbs, hlt, hpre, hpost⟩
      · left
        refine ⟨hcb, ?_⟩
        intro x hx h1 h2
        rcases List.mem_cons.mp hx with rfl | hx2
        · by_contra h3
          exact hc ⟨h1, h2, by omega⟩
        · exact hall x hx2 h1 h2
      · right
        refine ⟨hd :: pre, post, by simp [heq], hb0, hbs, hlt, ?_, hpost⟩
        intro x hx h1 h2
        rcases List.mem_cons.mp hx with rfl | hx2
        · right
          by_contra h3
          exact hc ⟨h1, h2, by omega⟩
        · exact hpre x hx2 h1 h2

/-- When the scan returns nothing, the accumulator was empty and no block of
the list is free, fitting, and below the running bound. -/
theorem find_best_aux_none (size : Nat) :
    ∀ (rest : List Block) (best : Option Block) (bestSize : Nat),
      find_best_aux size rest best bestSize = none →
      best = none ∧ ∀ c ∈ rest, c.status = 0 → size ≤ c.size → bestSize ≤ c.size := by
  intro rest
  induction rest with
  | nil =>
    intro best bestSize h
    exact ⟨by simpa [find_best_aux] using h, by simp⟩
  | cons hd tl ih =>
    intro best bestSize h
    simp only [find_best_aux] at h
    by_cases hc : hd.status = 0 ∧ size ≤ hd.size ∧ hd.size < bestSize
    · rw [if_pos hc] at h
      rcases ih (some hd) hd.size h with ⟨h1, _⟩
      exact absurd h1 (by simp)
    · rw [if_neg hc] at h
      rcases ih best bestSize h with ⟨h1, h2⟩
      refine ⟨h1, ?_⟩
      intro x hx hs hsz
      rcases List.mem_cons.mp hx with rfl | hx2
      · by_contra h3
        exact hc ⟨hs, hsz, by omega⟩
      · exact h2 x hx2 hs hsz

/-- Characterization of a successful best-fit search: the result is a free
fitting block strictly below `MMAP_THRESHOLD`, minimal among all free
fitting blocks, and the first one attaining that minimum. -/
theorem find_best_block_some (dir : List Block) (size : Nat) (b : Block)
    (h : find_best_block dir size = some b) :
    b.status = 0 ∧ size ≤ b.size ∧ b.size < MMAP_THRESHOLD ∧
    ∃ pre post, dir = pre ++ b :: post ∧
      (∀ c ∈ pre, c.status = 0 → size ≤ c.size → b.size < c.size) ∧
      (∀ c ∈ post, c.status = 0 → size ≤ c.size → b.size ≤ c.size) := by
  rcases find_best_aux_sound size dir none MMAP_THRESHOLD b h with
    ⟨h1, _⟩ | ⟨pre, post, heq, h0, h1, h2, hpre, hpost⟩
  · exact absurd h1 (by simp)
  · refine ⟨h0, h1, h2, pre, post, heq, ?_, hpost⟩
    intro c hc hs hsz
    rcases hpre c hc hs hsz with h3 | h3
    · exact h3
    · exact lt_of_lt_of_le h2 h3

/-- A failed best-fit search means every free fitting block of the
directory has size at least `MMAP_THRESHOLD`. -/
theorem find_best_block_none (dir : List Block) (size : Nat)
    (h : find_best_block dir size = none) :
    ∀ c ∈ dir, c.status = 0 → size ≤ c.size → MMAP_THRESHOLD ≤ c.size :=
  (find_best_aux_none size dir none MMAP_THRESHOLD h).2

/-- The forward merge of `os_free` keeps the address of its block. -/
theorem absorbNext_addr (b : Block) (rest : List Block) :
    (absorbNext b rest).1.addr = b.addr := by
  cases rest with
  | nil => rfl
  | cons n r =>
    simp only [absorbNext]
    split <;> rfl

/-- Releasing a heap block whose predecessor is absent or not free leaves a
free block with the same header address in the directory. -/
theorem osFreeHeap_keeps (a : Nat) :
    ∀ (dir : List Block) (b : Block),
      dir.find? (fun x => x.addr == a) = some b →
      b.status = 1 →
      (∀ p, prevOf a dir = some p → p.status ≠ 0) →
      ∃ bl, (osFreeHeap a dir).find? (fun x => x.addr == a) = some bl ∧ bl.status = 0 := by
  intro dir
  induction dir with
  | nil =>
    intro b h
    simp [List.find?] at h
  | cons x tl ih =>
    intro b hfind hst hprev
    cases tl with
    | nil =>
      by_cases hxa : x.addr = a
      · have hbx : x = b := by
          have := List.find?_cons_of_pos ([] : List Block) (p := fun z => z.addr == a)
            (a := x) (by simp [hxa])
          rw [this] at hfind
          injection hfind
        have hcond : x.addr = a ∧ x.status = 1 := ⟨hxa, hbx ▸ hst⟩
        refine ⟨⟨x.addr, x.size, 0⟩, ?_, rfl⟩
        simp only [osFreeHeap, if_pos hcond]
        exact List.find?_cons_of_pos _ (by simp [hxa])
      · exfalso
        have := List.find?_cons_of_neg ([] : List Block) (p := fun z => z.addr == a)
          (a := x) (by simp [hxa])
        rw [this] at hfind
        simp [List.find?] at hfind
    | cons y tl2 =>
      by_cases hxa : x.addr = a
      · have hbx : x = b := by
          have := List.find?_cons_of_pos (y :: tl2) (p := fun z => z.addr == a)
            (a := x) (by simp [hxa])
          rw [this] at hfind
          injection hfind
        have hxs : x.status = 1 := hbx ▸ hst
        refine ⟨⟨(absorbNext x (y :: tl2)).1.addr, (absorbNext x (y :: tl2)).1.size, 0⟩, ?_, rfl⟩
        simp only [osFreeHeap, if_pos hxa, if_pos hxs]
        exact List.find?_cons_of_pos _ (by simp [absorbNext_addr, hxa])
      · by_cases hya : y.addr = a
        · have hby : y = b := by
            have h1 := List.find?_cons_of_neg (y :: tl2) (p := fun z => z.addr == a)
              (a := x) (by simp [hxa])
            rw [h1] at hfind
            have h2 := List.find?_cons_of_pos tl2 (p := fun z => z.addr == a)
              (a := y) (by simp [hya])
            rw [h2] at hfind
            injection hfind
          have hys : y.status = 1 := hby ▸ hst
          have hxs : x.status ≠ 0 := by
            apply hprev
            simp only [prevOf, if_pos hya]
          refine ⟨⟨(absorbNext y tl2).1.addr, (absorbNext y tl2).1.size, 0⟩, ?_, rfl⟩
          simp only [osFreeHeap, if_neg hxa, if_pos hya, if_pos hys, if_neg hxs]
          rw [List.find?_cons_of_neg _ (by simp [hxa])]
          exact List.find?_cons_of_pos _ (by simp [absorbNext_addr, hya])
        · have hfind2 : (y :: tl2).find? (fun z => z.addr == a) = some b := by
            have h1 := List.find?_cons_of_neg (y :: tl2) (p := fun z => z.addr == a)
              (a := x) (by simp [hxa])
            rwa [h1] at hfind
          have hprev2 : ∀ p, prevOf a (y :: tl2) = some p → p.status ≠ 0 := by
            intro p hp
            apply hprev
            simp only [prevOf, if_neg hya]
            exact hp
          obtain ⟨bl, hbl, hbl0⟩ := ih b hfind2 hst hprev2
          refine ⟨bl, ?_, hbl0⟩
          simp only [osFreeHeap, if_neg hxa, if_neg hya]
          rw [List.find?_cons_of_neg _ (by simp [hxa])]
          exact hbl

/-- A resize of a live non-free block to a nonzero strictly smaller request
is exactly `split_realloc` on that block (lines 337-338). -/
theorem os_realloc_to_split (dir mapped : List Block) (a : Nat) (b : Block) (size0 : Nat)
    (hfind : findBlock dir mapped a = some b)
    (hs0 : b.status ≠ 0)
    (h0 : size0 ≠ 0)
    (hlt : size0 < b.size) :
    os_realloc dir mapped (a + META_SIZE) size0 = split_realloc dir mapped b size0 := by
  have hptr : a + META_SIZE ≠ 0 := by simp [META_SIZE]
  have hne : size0 ≠ b.size := by omega
  simp only [os_realloc, Nat.add_sub_cancel, hfind]
  simp [hptr, h0, hs0, hne, hlt]

/-- `split_realloc` never reaches the NULL-successor dereference of
`coalesce`; it does not call `coalesce` at all. -/
theorem split_realloc_ne_ubNullNext (dir mapped : List Block) (b : Block) (size0 : Nat) :
    split_realloc dir mapped b size0 ≠ .ubNullNext := by
  simp only [split_realloc]
  split
  · simp
  · split
    · simp
    · split
      · simp
      · simp

end OsMem

namespace OsMem

/-- C1: the claim says that after every public operation no two physically
adjacent directory entries are simultaneously Free, and in particular that
the shrink-with-split path of resize never leaves the new Free suffix next
to an already-Free successor.  The code violates this: in the directory
[4000-byte allocated, 96-byte free, 96-byte allocated] — which satisfies the
invariant — resizing the first block down to 16 bytes takes the heap split
path of `split_realloc` and produces a 3952-byte Free suffix directly
adjacent to the 96-byte Free block, with no coalescing. -/
theorem C1_resize_split_leaves_adjacent_free :
    hasAdjacentFree [⟨0, 4000, 1⟩, ⟨4032, 96, 0⟩, ⟨4160, 96, 1⟩] = false ∧
    os_realloc [⟨0, 4000, 1⟩, ⟨4032, 96, 0⟩, ⟨4160, 96, 1⟩] [] 32 16 =
      .heapSplit [⟨0, 16, 1⟩, ⟨48, 3952, 0⟩, ⟨4032, 96, 0⟩, ⟨4160, 96, 1⟩] 32 ∧
    hasAdjacentFree [⟨0, 16, 1⟩, ⟨48, 3952, 0⟩, ⟨4032, 96, 0⟩, ⟨4160, 96, 1⟩] = true := by
  decide

/-- C2 counterexample: three 65528-byte allocations plus a guard, released
in order, coalesce into one 196648-byte Free block; an immediately following
allocation of 65528 bytes (well below the freed size) does not reuse it —
`find_best_block` excludes Free blocks of size at least 128 KiB because
`best_fit_size` starts at `MMAP_THRESHOLD` — and instead the heap growth
cursor moves and a fresh top-of-heap block is returned. -/
theorem C2_counterexample_large_free_skipped :
    c2sH.dir = [⟨1048576, 196648, 0⟩, ⟨1310768, 8, 1⟩] ∧
    (∃ c ∈ c2sH.dir, c.status = 0 ∧ 65528 ≤ c.size) ∧
    (os_malloc c2sH 65528).2 = some (c2sH.brk + META_SIZE) ∧
    (os_malloc c2sH 65528).2 ≠ some (2 ^ 20 + META_SIZE) ∧
    (os_malloc c2sH 65528).1.brk ≠ c2sH.brk := by
  decide

/-- C2 (amended): the heap path selects, among the Free blocks whose size is
at least the request AND strictly below the 128 KiB threshold, the one with
the smallest size, ties broken by first encountered in address order; Free
blocks of size at least 128 KiB are never selected (a `none` result means
every free fitting block is at least 128 KiB); consequently, when the
directory holds a Free block fitting the rounded request with size below
128 KiB, a sub-threshold `os_malloc` serves the request from an existing
Free block without moving the heap growth cursor. -/
theorem C2_best_fit_bounded (dir : List Block) (size : Nat) :
    (∀ b, find_best_block dir size = some b →
       b.status = 0 ∧ size ≤ b.size ∧ b.size < MMAP_THRESHOLD ∧
       ∃ pre post, dir = pre ++ b :: post ∧
         (∀ c ∈ pre, c.status = 0 → size ≤ c.size → b.size < c.size) ∧
         (∀ c ∈ post, c.status = 0 → size ≤ c.size → b.size ≤ c.size)) ∧
    (find_best_block dir size = none →
       ∀ c ∈ dir, c.status = 0 → size ≤ c.size → c.size < MMAP_THRESHOLD → False) ∧
    (∀ s : AllocState, s.dir = dir →
       (∃ c ∈ dir, c.status = 0 ∧ align8 size ≤ c.size ∧ c.size < MMAP_THRESHOLD) →
       size ≠ 0 → align8 size < MMAP_THRESHOLD →
       (os_malloc s size).1.brk = s.brk ∧
       ∃ b0 ∈ dir, b0.status = 0 ∧ (os_malloc s size).2 = some (b0.addr + META_SIZE)) := by
  refine ⟨fun b h => find_best_block_some dir size b h, ?_, ?_⟩
  · intro h c hc h0 h1 h2
    exact absurd (find_best_block_none dir size h c hc h0 h1) (by omega)
  · intro s hs hex h0 hth
    have hne : find_best_block dir (align8 size) ≠ none := by
      intro hn
      obtain ⟨c, hc, hc0, hc1, hc2⟩ := hex
      exact absurd (find_best_block_none dir (align8 size) hn c hc hc0 hc1) (by omega)
    obtain ⟨best, hbest⟩ := Option.ne_none_iff_exists'.mp hne
    obtain ⟨hb0, _, _, pre, post, heq, _, _⟩ := find_best_block_some dir (align8 size) best hbest
    cases dir with
    | nil =>
      obtain ⟨c, hc, -⟩ := hex
      simp at hc
    | cons d ds =>
      have hmal : os_malloc s size =
          (⟨try_split best.addr (align8 size) (d :: ds), s.mapped, s.brk, s.nextMmapAddr⟩,
           some (best.addr + META_SIZE)) := by
        simp only [os_malloc, hs, hbest, if_neg h0, if_pos hth]
      refine ⟨by rw [hmal], best, ?_, hb0, by rw [hmal]⟩
      rw [heq]
      exact List.mem_append.mpr (Or.inr (List.mem_cons_self _ _))

/-- C2 witness: in the directory [96-byte allocated, 64-byte free, 80-byte
free] a request of 16 bytes selects the 64-byte block — free, fitting, below
threshold, and minimal, first among the candidates. -/
theorem C2_best_fit_bounded_witness :
    (⟨128, 64, 0⟩ : Block).status = 0 ∧ 16 ≤ (⟨128, 64, 0⟩ : Block).size ∧
    (⟨128, 64, 0⟩ : Block).size < MMAP_THRESHOLD ∧
    ∃ pre post,
      [⟨0, 96, 1⟩, ⟨128, 64, 0⟩, ⟨224, 80, 0⟩] = pre ++ (⟨128, 64, 0⟩ : Block) :: post ∧
      (∀ c ∈ pre, c.status = 0 → 16 ≤ c.size → (⟨128, 64, 0⟩ : Block).size < c.size) ∧
      (∀ c ∈ post, c.status = 0 → 16 ≤ c.size → (⟨128, 64, 0⟩ : Block).size ≤ c.size) :=
  (C2_best_fit_bounded [⟨0, 96, 1⟩, ⟨128, 64, 0⟩, ⟨224, 80, 0⟩] 16).1 ⟨128, 64, 0⟩ (by decide)

/-- C3: the claim says growing a MappedAllocated block always relocates
(allocate new, copy, release old).  The code does not: a mapped block's
`next` field reads as NULL (the zero-filled mapping is never linked), so
`os_realloc` on a 131072-byte mapped block grown to 140000 bytes takes the
`block->next == NULL` branch of line 344, sets the directory tail cache to
the mapped block and calls `expand_last` — the heap-extension path — instead
of the relocation the claim requires. -/
theorem C3_mapped_grow_takes_expand_path :
    os_realloc [] [⟨10000, 131072, 2⟩] 10032 140000 = .expandLast 10032 140000 ∧
    os_realloc [] [⟨10000, 131072, 2⟩] 10032 140000 ≠ .relocateCopy 140000 131072 := by
  decide

/-- C4: the claim says every OS-primitive failure at every call site —
including the independent-mapping path of `os_calloc` — is fatal with a
diagnostic.  The `mmap` at line 238 of `os_calloc` is the one call site with
no `DIE` check: on failure the code stores the header through `MAP_FAILED`
and continues (no diagnostic, no controlled termination), while all six
other primitive call sites report and terminate through `DIE`. -/
theorem C4_calloc_mmap_unchecked :
    os_calloc_fa true ⟨[], [], 2 ^ 20, 2 ^ 40⟩ 4096 10 500 = .ubStoreToMapFailed ∧
    os_calloc_fa true ⟨[], [], 2 ^ 20, 2 ^ 40⟩ 4096 10 500 ≠ .fatalStop ∧
    os_calloc_mmap_onFailure = .ubContinue ∧
    os_calloc_mmap_onFailure ≠ .fatalDiag ∧
    preallocate_onFailure = .fatalDiag ∧
    request_mmap_onFailure = .fatalDiag ∧
    expand_last_onFailure = .fatalDiag ∧
    create_new_block_onFailure = .fatalDiag ∧
    os_free_munmap_onFailure = .fatalDiag := by
  decide

/-- C5 counterexample: releasing a 131072-byte mapped block unmaps it, and
an immediately repeated release of the same pointer reads the block header
from the now-unmapped region — `ubHeader`, not a no-op — so
`release(p); release(p)` is not safe for a mapped `p`. -/
theorem C5_counterexample_mapped_double_release :
    os_free [] [⟨4096, 131072, 2⟩] 4128 = .ok [] [] ∧
    os_free [] [] 4128 = .ubHeader := by
  decide

/-- C5 (amended): for a heap-backed block whose predecessor is absent or not
Free, releasing twice is safe — the first release leaves a Free block at the
same header address, and the second release sees status Free and returns
with the allocator state unchanged. -/
theorem C5_double_release_heap_noop (dir mapped : List Block) (a : Nat) (b : Block)
    (hfind : dir.find? (fun x => x.addr == a) = some b)
    (hst : b.status = 1)
    (hprev : ∀ p, prevOf a dir = some p → p.status ≠ 0) :
    ∃ dir2, os_free dir mapped (a + META_SIZE) = .ok dir2 mapped ∧
            os_free dir2 mapped (a + META_SIZE) = .ok dir2 mapped := by
  have hptr : a + META_SIZE ≠ 0 := by simp [META_SIZE]
  have hsub : a + META_SIZE - META_SIZE = a := by simp
  have hfb : findBlock dir mapped a = some b := findBlock_of_dir dir mapped a b hfind
  obtain ⟨bl, hbl, hbl0⟩ := osFreeHeap_keeps a dir b hfind hst hprev
  have hfb2 : findBlock (osFreeHeap a dir) mapped a = some bl :=
    findBlock_of_dir _ mapped a bl hbl
  refine ⟨osFreeHeap a dir, ?_, ?_⟩
  · unfold os_free
    rw [if_neg hptr, hsub, hfb]
    simp [hst]
  · unfold os_free
    rw [if_neg hptr, hsub, hfb2]
    simp [hbl0]

/-- C5 witness: double release of the single 64-byte heap block. -/
theorem C5_double_release_heap_noop_witness :
    ∃ dir2, os_free [⟨0, 64, 1⟩] [] (0 + META_SIZE) = .ok dir2 [] ∧
            os_free dir2 [] (0 + META_SIZE) = .ok dir2 [] :=
  C5_double_release_heap_noop [⟨0, 64, 1⟩] [] 0 ⟨0, 64, 1⟩ (by decide) rfl
    (by
      intro p hp
      have h : prevOf 0 [(⟨0, 64, 1⟩ : Block)] = none := rfl
      rw [h] at hp
      cases hp)

/-- C6 counterexample: a 131072-byte mapped block resized to 131064 bytes —
a shrink — is NOT relocated: the remainder 131072 - 131064 - 32 is negative
as a signed int, so `split_realloc` takes the in-place branch, adjusts the
size field of the mapped block and returns the same pointer 4128. -/
theorem C6_counterexample_mapped_inplace_shrink :
    os_realloc [] [⟨4096, 131072, 2⟩] 4128 131064 =
      .inPlace [] [⟨4096, 131064, 2⟩] 4128 := by
  decide

/-- C6 (amended): shrinking a MappedAllocated block relocates — allocating
`align8 newSize` bytes, copying `align8 newSize` bytes and releasing the old
mapping — only when `size - align8 newSize - META_SIZE` is positive as a
32-bit signed value; otherwise it shrinks in place by adjusting the size
field and returns the same pointer. -/
theorem C6_mapped_shrink_dispatch (dir mapped : List Block) (a : Nat) (b : Block) (size0 : Nat)
    (hfind : findBlock dir mapped a = some b)
    (hst : b.status = 2)
    (h0 : size0 ≠ 0)
    (hlt : size0 < b.size) :
    (toInt32 (sub64 (sub64 b.size (align8 size0)) META_SIZE) ≤ 0 →
       os_realloc dir mapped (a + META_SIZE) size0 =
         .inPlace (setSizeAt a (align8 size0) dir) (setSizeAt a (align8 size0) mapped)
           (a + META_SIZE)) ∧
    (0 < toInt32 (sub64 (sub64 b.size (align8 size0)) META_SIZE) →
       os_realloc dir mapped (a + META_SIZE) size0 =
         .relocateCopy (align8 size0) (align8 size0)) := by
  have hba := findBlock_addr dir mapped a b hfind
  have hs0 : b.status ≠ 0 := by omega
  have hrel := os_realloc_to_split dir mapped a b size0 hfind hs0 h0 hlt
  constructor
  · intro hneg
    rw [hrel]
    simp only [split_realloc]
    rw [if_pos hneg, hba]
  · intro hpos
    have hneg : ¬ toInt32 (sub64 (sub64 b.size (align8 size0)) META_SIZE) ≤ 0 := by omega
    rw [hrel]
    simp only [split_realloc]
    rw [if_neg hneg, if_pos hst]

/-- C6 witness: a 131072-byte mapped block shrunk to 16 bytes relocates,
copying 16 bytes. -/
theorem C6_mapped_shrink_dispatch_witness :
    os_realloc [] [⟨4096, 131072, 2⟩] (4096 + META_SIZE) 16 =
      .relocateCopy (align8 16) (align8 16) :=
  (C6_mapped_shrink_dispatch [] [⟨4096, 131072, 2⟩] 4096 ⟨4096, 131072, 2⟩ 16 (by decide) rfl
    (by decide) (by decide)).2 (by decide)

/-- C7: for every live non-Free block (heap or mapped) and every nonzero
request whose 8-byte rounding equals the block's current size, resize
returns the same payload pointer — directly when the raw request equals the
size, and through the in-place branch of `split_realloc` when only the
rounding matches. -/
theorem C7_resize_rounds_to_current (dir mapped : List Block) (a : Nat) (b : Block) (size0 : Nat)
    (hfind : findBlock dir mapped a = some b)
    (hst : b.status = 1 ∨ b.status = 2)
    (h0 : size0 ≠ 0)
    (hrange : size0 + 7 < 2 ^ 64)
    (hsz : align8 size0 = b.size) :
    retPtr (os_realloc dir mapped (a + META_SIZE) size0) = some (a + META_SIZE) := by
  have hba := findBlock_addr dir mapped a b hfind
  have hptr : a + META_SIZE ≠ 0 := by simp [META_SIZE]
  have hs0 : b.status ≠ 0 := by rcases hst with h | h <;> omega
  by_cases heq : size0 = b.size
  · have hbs0 : b.size ≠ 0 := heq ▸ h0
    have hsame : os_realloc dir mapped (a + META_SIZE) size0 = .same (a + META_SIZE) := by
      simp only [os_realloc, Nat.add_sub_cancel, hfind]
      simp [hptr, h0, hs0, heq, hbs0]
    rw [hsame]
    rfl
  · have hlt : size0 < b.size := lt_of_le_of_ne (hsz ▸ align8_ge size0 hrange) heq
    have hrel := os_realloc_to_split dir mapped a b size0 hfind hs0 h0 hlt
    have hrem : sub64 (sub64 b.size (align8 size0)) META_SIZE = 2 ^ 64 - 32 := by
      rw [hsz, sub64_self]
      decide
    have hneg : toInt32 (sub64 (sub64 b.size (align8 size0)) META_SIZE) ≤ 0 := by
      rw [hrem]
      decide
    have hsp : split_realloc dir mapped b size0 =
        .inPlace (setSizeAt a (align8 size0) dir) (setSizeAt a (align8 size0) mapped)
          (a + META_SIZE) := by
      simp only [split_realloc]
      rw [if_pos hneg, hba]
    rw [hrel, hsp]
    rfl

/-- C7 witness: a 16-byte allocated block resized to 9 bytes (which rounds
to 16) keeps its pointer. -/
theorem C7_resize_rounds_to_current_witness :
    retPtr (os_realloc [⟨0, 16, 1⟩] [] (0 + META_SIZE) 9) = some (0 + META_SIZE) :=
  C7_resize_rounds_to_current [⟨0, 16, 1⟩] [] 0 ⟨0, 16, 1⟩ 9 (by decide) (Or.inl rfl)
    (by decide) (by decide) (by decide)

/-- C8: growing a heap-backed block that is the directory tail (its `next`
is NULL) goes through the in-place heap-extension path: `os_realloc` takes
the `expand_last` branch with the aligned request, and `expand_last` returns
the very same payload pointer — no copy, no relocation. -/
theorem C8_tail_grow_in_place (dir mapped : List Block) (a : Nat) (b : Block) (size0 : Nat)
    (s : AllocState)
    (hfind : dir.find? (fun x => x.addr == a) = some b)
    (hst : b.status = 1)
    (htail : dirNext a dir = none)
    (hgrow : b.size < size0) :
    os_realloc dir mapped (a + META_SIZE) size0 = .expandLast (a + META_SIZE) (align8 size0) ∧
    (expand_last s a (align8 size0)).2 = some (a + META_SIZE) := by
  have hfb := findBlock_of_dir dir mapped a b hfind
  have hptr : a + META_SIZE ≠ 0 := by simp [META_SIZE]
  have h0 : size0 ≠ 0 := by omega
  have hne : size0 ≠ b.size := by omega
  have hnlt : ¬ size0 < b.size := by omega
  constructor
  · simp only [os_realloc, Nat.add_sub_cancel, hfb]
    simp [hptr, h0, hst, hne, hnlt, htail]
  · rfl

/-- C8 witness: the single 16-byte tail block grown to 4000 bytes stays in
place. -/
theorem C8_tail_grow_in_place_witness :
    os_realloc [⟨0, 16, 1⟩] [] (0 + META_SIZE) 4000 =
      .expandLast (0 + META_SIZE) (align8 4000) ∧
    (expand_last ⟨[⟨0, 16, 1⟩], [], 131072, 2 ^ 40⟩ 0 (align8 4000)).2 =
      some (0 + META_SIZE) :=
  C8_tail_grow_in_place [⟨0, 16, 1⟩] [] 0 ⟨0, 16, 1⟩ 4000 ⟨[⟨0, 16, 1⟩], [], 131072, 2 ^ 40⟩
    (by decide) rfl (by decide) (by decide)

/-- C9: with both factors nonzero (and the product not wrapping `size_t`),
`os_calloc` dispatches on the OS page size, not on the 128 KiB threshold:
when `align8 (nmemb * esz) + META_SIZE` exceeds the page size it builds an
independent zero-filled mapping marked status 2 and leaves the directory
untouched; otherwise it is exactly `os_malloc` on the aligned total with the
returned payload zero-filled when the pointer is non-NULL. -/
theorem C9_calloc_page_threshold (s : AllocState) (pageSize nmemb esz : Nat)
    (hn : nmemb ≠ 0) (he : esz ≠ 0) (hov : nmemb * esz < 2 ^ 64) :
    (pageSize < align8 (nmemb * esz) + META_SIZE →
       os_calloc s pageSize nmemb esz =
         ⟨⟨s.dir, ⟨s.nextMmapAddr, align8 (nmemb * esz), 2⟩ :: s.mapped, s.brk,
           (s.nextMmapAddr + align8 (nmemb * esz) + META_SIZE) % 2 ^ 64⟩,
          some (s.nextMmapAddr + META_SIZE), true⟩) ∧
    (align8 (nmemb * esz) + META_SIZE ≤ pageSize →
       os_calloc s pageSize nmemb esz =
         ⟨(os_malloc s (align8 (nmemb * esz))).1, (os_malloc s (align8 (nmemb * esz))).2,
          (os_malloc s (align8 (nmemb * esz))).2.isSome⟩) := by
  have hmod : nmemb * esz % 2 ^ 64 = nmemb * esz := Nat.mod_eq_of_lt hov
  constructor
  · intro hgt
    simp only [os_calloc, hmod]
    rw [if_neg (by simp [hn, he]), if_pos hgt]
  · intro hle
    simp only [os_calloc, hmod]
    rw [if_neg (by simp [hn, he]), if_neg (by omega)]

/-- C9 witness: 1024 x 8 bytes (8192, below the 128 KiB threshold but above
the 4096-byte page) goes to an independent zero-filled mapping, while
10 x 8 bytes delegates to `os_malloc`. -/
theorem C9_calloc_page_threshold_witness :
    os_calloc ⟨[], [], 2 ^ 20, 2 ^ 40⟩ 4096 1024 8 =
      ⟨⟨[], ⟨2 ^ 40, align8 (1024 * 8), 2⟩ :: [], 2 ^ 20,
        (2 ^ 40 + align8 (1024 * 8) + META_SIZE) % 2 ^ 64⟩,
       some (2 ^ 40 + META_SIZE), true⟩ ∧
    os_calloc ⟨[], [], 2 ^ 20, 2 ^ 40⟩ 4096 10 8 =
      ⟨(os_malloc ⟨[], [], 2 ^ 20, 2 ^ 40⟩ (align8 (10 * 8))).1,
       (os_malloc ⟨[], [], 2 ^ 20, 2 ^ 40⟩ (align8 (10 * 8))).2,
       (os_malloc ⟨[], [], 2 ^ 20, 2 ^ 40⟩ (align8 (10 * 8))).2.isSome⟩ :=
  ⟨(C9_calloc_page_threshold ⟨[], [], 2 ^ 20, 2 ^ 40⟩ 4096 1024 8 (by decide) (by decide)
      (by norm_num)).1 (by decide),
   (C9_calloc_page_threshold ⟨[], [], 2 ^ 20, 2 ^ 40⟩ 4096 10 8 (by decide) (by decide)
      (by norm_num)).2 (by decide)⟩

/-- C10: the condition of `coalesce` reads the successor's status before
testing the successor for NULL (its `none` branch, `ubNullNext`), yet
`os_realloc` — the only caller — reaches the `coalesce` call only after the
`block->next == NULL` test of line 344 has sent NULL-successor (and mapped)
blocks to the `expand_last` path, so no run of `os_realloc` ever produces
the NULL dereference. -/
theorem C10_coalesce_null_unreachable (dir mapped : List Block) (ptr size0 : Nat) :
    os_realloc dir mapped ptr size0 ≠ .ubNullNext := by
  simp only [os_realloc]
  split
  · simp
  · split
    · simp
    · split
      · simp
      · split
        · simp
        · split
          · simp
          · split
            · exact split_realloc_ne_ubNullNext _ _ _ _
            · split
              · simp
              · split
                · rename_i hco
                  exfalso
                  simp only [coalesce] at hco
                  split at hco
                  · split at hco <;> cases hco
                  · cases hco
                · split
                  · simp
                  · split
                    · exact split_realloc_ne_ubNullNext _ _ _ _
                    · split
                      · exact split_realloc_ne_ubNullNext _ _ _ _
                      · simp

end OsMem
